import Mathlib

/-!
Shallow embedding of the `check-email-js` module (`src/index.ts`).

The module validates email addresses against regular expressions built at
runtime.  We embed the three functions `getResponse`, `validateDomains` and
`checkEmail`, together with the regular expressions the source constructs
(`DOMAIN_REGEX`, `EMAIL_WITH_DOMAIN_REGEX` and the per-call standard
pattern).  Regular expressions are modelled by a small syntax tree whose
atoms are exactly the character classes occurring in the source patterns;
matching is decided with Brzozowski derivatives and proved correct against
an inductive language semantics.

JavaScript dynamic values are modelled only as far as the option object
needs: `max` is absent (the destructuring default `null`, which also covers
a caller-supplied `null` or `undefined`), a number (an integer or `NaN`;
non-integer doubles are out of scope) or a non-number (a string), and
`domains` is absent, a string or an array of strings.  JavaScript
truthiness on these values is embedded explicitly.  `new RegExp` can throw
a `SyntaxError` (a `{2,L}` quantifier with `L < 2` is an early error),
so `checkEmail` returns `Except String ValidationResult`: `.ok` is a
normal return, `.error` a thrown exception.
-/

namespace CheckEmailJs

/-! ### Regular expressions: syntax -/

/-- Regular-expression syntax tree.  The atoms are the character classes
appearing in the source's patterns: `\w` (`wordC`), `[a-zA-Z]` (`alphaC`)
and `[.-]` (`sepC`). -/
inductive Regex where
  | emp : Regex
  | eps : Regex
  | char : Char → Regex
  | wordC : Regex
  | alphaC : Regex
  | sepC : Regex
  | alt : Regex → Regex → Regex
  | cat : Regex → Regex → Regex
  | star : Regex → Regex
deriving DecidableEq, Repr

/-- JavaScript `\w`: ASCII letters, digits and underscore. -/
def isWordChar (c : Char) : Bool := c.isAlpha || c.isDigit || c = '_'

/-- JavaScript `[.-]`: a literal dot or hyphen. -/
def isSepChar (c : Char) : Bool := c = '.' || c = '-'

/-- `r?` (zero or one occurrence). -/
def rOpt (r : Regex) : Regex := Regex.alt Regex.eps r

/-- `r+` (one or more occurrences). -/
def rPlus (r : Regex) : Regex := Regex.cat r (Regex.star r)

/-- `r{n}` (exactly `n` occurrences). -/
def rRep (r : Regex) : Nat → Regex
  | 0 => Regex.eps
  | n + 1 => Regex.cat r (rRep r n)

/-- At most `n` occurrences of `r` (the optional tail of a bounded
quantifier). -/
def rUpTo (r : Regex) : Nat → Regex
  | 0 => Regex.eps
  | n + 1 => Regex.alt Regex.eps (Regex.cat r (rUpTo r n))

/-- `r{m,n}`: between `m` and `n` occurrences. -/
def rRange (r : Regex) (m n : Nat) : Regex :=
  Regex.cat (rRep r m) (rUpTo r (n - m))

/-- `r{m,}`: at least `m` occurrences. -/
def rAtLeast (r : Regex) (m : Nat) : Regex :=
  Regex.cat (rRep r m) (Regex.star r)

/-- A literal string, character by character. -/
def litStr (s : String) : Regex :=
  s.data.foldr (fun c r => Regex.cat (Regex.char c) r) Regex.eps

/-! ### Regular expressions: language semantics -/

/-- The language of a regex, as an inductive membership relation on
character lists. -/
inductive RMatches : Regex → List Char → Prop where
  | eps : RMatches Regex.eps []
  | char (c : Char) : RMatches (Regex.char c) [c]
  | wordC {c : Char} : isWordChar c = true → RMatches Regex.wordC [c]
  | alphaC {c : Char} : c.isAlpha = true → RMatches Regex.alphaC [c]
  | sepC {c : Char} : isSepChar c = true → RMatches Regex.sepC [c]
  | altL {r s : Regex} {w : List Char} :
      RMatches r w → RMatches (Regex.alt r s) w
  | altR {r s : Regex} {w : List Char} :
      RMatches s w → RMatches (Regex.alt r s) w
  | cat {r s : Regex} {w₁ w₂ : List Char} :
      RMatches r w₁ → RMatches s w₂ → RMatches (Regex.cat r s) (w₁ ++ w₂)
  | starNil {r : Regex} : RMatches (Regex.star r) []
  | starCons {r : Regex} {w₁ w₂ : List Char} :
      RMatches r w₁ → RMatches (Regex.star r) w₂ →
      RMatches (Regex.star r) (w₁ ++ w₂)

/-! ### Regular expressions: derivative-based matcher -/

/-- Smart alternation: drops `emp` and duplicate branches.  Keeps
derivatives small; proved language-preserving below. -/
def mkAlt (r s : Regex) : Regex :=
  if r = Regex.emp then s
  else if s = Regex.emp then r
  else if r = s then r
  else Regex.alt r s

/-- Smart concatenation: absorbs `emp` and drops `eps`. -/
def mkCat (r s : Regex) : Regex :=
  if r = Regex.emp then Regex.emp
  else if s = Regex.emp then Regex.emp
  else if r = Regex.eps then s
  else if s = Regex.eps then r
  else Regex.cat r s

/-- Does the regex accept the empty string? -/
def nullable : Regex → Bool
  | Regex.emp => false
  | Regex.eps => true
  | Regex.char _ => false
  | Regex.wordC => false
  | Regex.alphaC => false
  | Regex.sepC => false
  | Regex.alt r s => nullable r || nullable s
  | Regex.cat r s => nullable r && nullable s
  | Regex.star _ => true

/-- Brzozowski derivative of a regex with respect to one character. -/
def deriv (r : Regex) (c : Char) : Regex :=
  match r with
  | Regex.emp => Regex.emp
  | Regex.eps => Regex.emp
  | Regex.char d => if c = d then Regex.eps else Regex.emp
  | Regex.wordC => if isWordChar c then Regex.eps else Regex.emp
  | Regex.alphaC => if c.isAlpha then Regex.eps else Regex.emp
  | Regex.sepC => if isSepChar c then Regex.eps else Regex.emp
  | Regex.alt r₁ r₂ => mkAlt (deriv r₁ c) (deriv r₂ c)
  | Regex.cat r₁ r₂ =>
      if nullable r₁ then mkAlt (mkCat (deriv r₁ c) r₂) (deriv r₂ c)
      else mkCat (deriv r₁ c) r₂
  | Regex.star r₁ => mkCat (deriv r₁ c) (Regex.star r₁)

/-- `RegExp.prototype.test` for an anchored pattern: whole-string matching
by iterated derivatives. -/
def rmatch (r : Regex) (s : String) : Bool :=
  nullable (s.data.foldl deriv r)

/-! ### The source's patterns -/

/-- `/^\w+\.[a-zA-Z]{2,}$/` — the source's `DOMAIN_REGEX`. -/
def DOMAIN_REGEX : Regex :=
  Regex.cat (rPlus Regex.wordC)
    (Regex.cat (Regex.char '.') (rAtLeast Regex.alphaC 2))

/-- `^\w+([.-]?\w+)*` — the local-part grammar shared by every email
pattern in the source. -/
def rLocal : Regex :=
  Regex.cat (rPlus Regex.wordC)
    (Regex.star (Regex.cat (rOpt Regex.sepC) (rPlus Regex.wordC)))

/-- `` new RegExp(`^\w+([.-]?\w+)*@${name}\.${extension}$`) `` — the
source's `EMAIL_WITH_DOMAIN_REGEX`.  Faithful when `name` and `extension`
consist of characters without regex meaning; both call sites only pass
pieces of a domain that matched `DOMAIN_REGEX` (word characters and
letters). -/
def EMAIL_WITH_DOMAIN_REGEX (name extension : String) : Regex :=
  Regex.cat rLocal
    (Regex.cat (Regex.char '@')
      (Regex.cat (litStr name)
        (Regex.cat (Regex.char '.') (litStr extension))))

/-- `^\w+([.-]?\w+)*@\w+([.-]?\w+)*(\.\w{2,L})+$` for a TLD length bound
`L ≥ 2`: the unrestricted-mode pattern. -/
def standardRegex (L : Nat) : Regex :=
  Regex.cat rLocal
    (Regex.cat (Regex.char '@')
      (Regex.cat rLocal
        (rPlus (Regex.cat (Regex.char '.') (rRange Regex.wordC 2 L)))))

/-- The unrestricted-mode pattern string for a negative bound `L`.  The
interpolation produces `\w{2,-k}`, and `{2,-k}` is not a braced
quantifier (JavaScript `DecimalDigits` cannot contain `-`), so Annex B
parses the braces and their content as literal characters after the
single `\w` atom. -/
def standardRegexLit (L : Int) : Regex :=
  Regex.cat rLocal
    (Regex.cat (Regex.char '@')
      (Regex.cat rLocal
        (rPlus (Regex.cat (Regex.char '.')
          (Regex.cat Regex.wordC
            (litStr ("\x7b2," ++ toString L ++ "\x7d")))))))

/-- `` new RegExp(`^\w+([.-]?\w+)*@\w+([.-]?\w+)*(\.\w{2,L})+$`) `` with
`L = max || 3`.  A quantifier `{2,L}` whose maximum is a decimal numeral
smaller than its minimum is an early `SyntaxError` in JavaScript, so
construction throws for `L = 1` (`L = 0` cannot reach here: `0` is falsy
and `max || 3` replaces it by `3`).  For negative `L` the braces are
literal (see `standardRegexLit`) and construction succeeds. -/
def mkStandardPattern (L : Int) : Except String Regex :=
  if L < 0 then Except.ok (standardRegexLit L)
  else if L < 2 then
    Except.error "SyntaxError: Invalid regular expression: numbers out of order in \x7b\x7d quantifier"
  else Except.ok (standardRegex L.toNat)

/-! ### The option object and the result object -/

/-- A JavaScript number as far as `max` needs: an integer or `NaN`. -/
inductive JSNum where
  | int : Int → JSNum
  | nan : JSNum
deriving DecidableEq, Repr

/-- JavaScript truthiness of a number: `0` and `NaN` are falsy. -/
def JSNum.truthy : JSNum → Bool
  | JSNum.int n => n ≠ 0
  | JSNum.nan => false

/-- The `max` option: absent (the destructuring default `null`), a number,
or a non-number value (modelled by strings, e.g. `'three'`). -/
inductive MaxOpt where
  | none : MaxOpt
  | num : JSNum → MaxOpt
  | str : String → MaxOpt
deriving DecidableEq, Repr

/-- JavaScript truthiness of the `max` value (`null` and `''` are
falsy). -/
def MaxOpt.truthy : MaxOpt → Bool
  | MaxOpt.none => false
  | MaxOpt.num n => n.truthy
  | MaxOpt.str s => s ≠ ""

/-- `typeof max === 'number'`. -/
def MaxOpt.isNumber : MaxOpt → Bool
  | MaxOpt.num _ => true
  | _ => false

/-- `max || 3`: the TLD length bound used by the unrestricted pattern.
Reached only after the type guard, so a truthy `max` is a number here. -/
def maxOr3 : MaxOpt → Int
  | MaxOpt.num (JSNum.int n) => if n ≠ 0 then n else 3
  | _ => 3

/-- The `domains` option: absent, one string, or an array of strings. -/
inductive DomainsOpt where
  | none : DomainsOpt
  | str : String → DomainsOpt
  | arr : List String → DomainsOpt
deriving DecidableEq, Repr

/-- JavaScript truthiness of the `domains` value: `null` and `''` are
falsy; every array (even the empty one) is truthy. -/
def DomainsOpt.truthy : DomainsOpt → Bool
  | DomainsOpt.none => false
  | DomainsOpt.str s => s ≠ ""
  | DomainsOpt.arr _ => true

/-- `Array.isArray(domains) && domains.length === 0`. -/
def DomainsOpt.isEmptyArr : DomainsOpt → Bool
  | DomainsOpt.arr [] => true
  | _ => false

/-- The options object `{ domains?, max? }`. -/
structure CheckEmailOptions where
  domains : DomainsOpt := DomainsOpt.none
  max : MaxOpt := MaxOpt.none
deriving DecidableEq, Repr

/-- The result object `{ valid: boolean; error?: string | null }`. -/
structure ValidationResult where
  valid : Bool
  error : Option String := none
deriving DecidableEq, Repr

/-! ### The source's functions -/

/-- Template interpolation `${email}` where `email : string | null`:
`null` prints as the literal token `null`. -/
def jsShowNullable : Option String → String
  | Option.none => "null"
  | Option.some s => s

/-- `error || default`: the empty string is falsy, so a caller-supplied
`''` falls back to the default message, exactly like `null`. -/
def jsOrStr (error : Option String) (dflt : String) : String :=
  match error with
  | Option.none => dflt
  | Option.some s => if s = "" then dflt else s

/-- `getResponse(valid, email = null, error = null)` from the source. -/
def getResponse (valid : Bool) (email : Option String := none)
    (error : Option String := none) : ValidationResult :=
  if valid then { valid := true }
  else
    let message := jsOrStr error (jsShowNullable email ++ " is not a valid email.")
    { valid := false, error := some message }

/-- `validateDomains(domains)` from the source: collect the entries that
fail `DOMAIN_REGEX` (the `forEach`/`push` loop is a filter) and build the
bracketed error message. -/
def validateDomains (domains : List String) : ValidationResult :=
  let errors := domains.filter (fun domain => !rmatch DOMAIN_REGEX domain)
  let hasErrors := errors.length > 0
  let message :=
    if hasErrors then some ("[" ++ String.intercalate ", " errors ++ "] are not valid domains.")
    else Option.none
  getResponse (!hasErrors) none message

/-- `domain.split('.')` destructured as `[name, extension]`: `name` is the
text before the first dot, `extension` the text between the first and
second dots.  Reached only for a domain matching `DOMAIN_REGEX`, which has
exactly one dot, so the two components exist. -/
def splitDomain (domain : String) : String × String :=
  let name := domain.data.takeWhile (fun c => c ≠ '.')
  let rest := (domain.data.dropWhile (fun c => c ≠ '.')).drop 1
  let extension := rest.takeWhile (fun c => c ≠ '.')
  (String.mk name, String.mk extension)

/-- The single-domain branch of `checkEmail`: `emailDomain` is the one
domain to match, `display` is the interpolation `${domains}` of the
original option value (an array of one string prints as its element). -/
def singleDomainPath (email emailDomain display : String) : ValidationResult :=
  if !rmatch DOMAIN_REGEX emailDomain then
    getResponse false (some email) (some ("`" ++ display ++ "` is not a valid domain."))
  else
    let nameExt := splitDomain emailDomain
    getResponse (rmatch (EMAIL_WITH_DOMAIN_REGEX nameExt.1 nameExt.2) email) (some email)

/-- The `for...of` loop over the domain list: test each domain's pattern
in order and break at the first match. -/
def matchDomainsLoop (email : String) : List String → Bool
  | [] => false
  | domain :: rest =>
      let nameExt := splitDomain domain
      if rmatch (EMAIL_WITH_DOMAIN_REGEX nameExt.1 nameExt.2) email then true
      else matchDomainsLoop email rest

/-- `checkEmail(email, options = {})` from the source.  `.ok` is a normal
return; `.error` models a thrown exception (`new RegExp` with an invalid
quantifier).  The source's `!isStringOrArray` branch is unreachable in
this model because `domains` is a string or a list of strings by
construction. -/
def checkEmail (email : String) (options : CheckEmailOptions := {}) :
    Except String ValidationResult :=
  let domains := options.domains
  let max := options.max
  -- if (max && typeof max !== 'number') ...
  if max.truthy && !max.isNumber then
    Except.ok (getResponse false none (some "`max` can only have a value of number."))
  -- if (!domains || (Array.isArray(domains) && domains.length === 0)) ...
  else if !domains.truthy || domains.isEmptyArr then
    match mkStandardPattern (maxOr3 max) with
    | Except.error e => Except.error e
    | Except.ok pat => Except.ok (getResponse (rmatch pat email) (some email))
  -- if (max) ...   (the `!isStringOrArray` guard above it never fires here)
  else if max.truthy then
    Except.ok (getResponse false none (some "`max` can only be used if `domains` are not provided."))
  else
    Except.ok
      (match domains with
        -- unreachable: a falsy `domains` took the unrestricted branch
        | DomainsOpt.none => getResponse false none none
        | DomainsOpt.str s => singleDomainPath email s s
        | DomainsOpt.arr l =>
          if l.length == 1 then
            -- `${domains}` stringifies a one-element array as its element
            singleDomainPath email (l.getD 0 "") (String.intercalate "," l)
          else
            let domainResults := validateDomains l
            match domainResults.error with
            | some msg => getResponse false (some email) (some msg)
            | Option.none => getResponse (matchDomainsLoop email l) (some email))

/-- The spec-side pattern `^\w+([.-]?\w+)*@\w+([.-]?\w+)*\.\w\x7b2,3\x7d$`
quoted by the specification: the unrestricted grammar with exactly one
extension group of length 2..3 (the code's pattern has `(...)+` around the
group instead). -/
def specSimplePattern : Regex :=
  Regex.cat rLocal
    (Regex.cat (Regex.char '@')
      (Regex.cat rLocal (Regex.cat (Regex.char '.') (rRange Regex.wordC 2 3))))

instance {ε α : Type} [DecidableEq ε] [DecidableEq α] : DecidableEq (Except ε α) := fun a b =>
  match a, b with
  | Except.ok x, Except.ok y =>
      if h : x = y then isTrue (by rw [h]) else isFalse (fun hh => h (by injection hh))
  | Except.error x, Except.error y =>
      if h : x = y then isTrue (by rw [h]) else isFalse (fun hh => h (by injection hh))
  | Except.ok _, Except.error _ => isFalse (fun hh => by injection hh)
  | Except.error _, Except.ok _ => isFalse (fun hh => by injection hh)

/-! ### Correctness of the derivative matcher -/

theorem RMatches_emp_elim {w : List Char} (h : RMatches Regex.emp w) : False :=
  nomatch h

theorem RMatches_eps_inv {w : List Char} (h : RMatches Regex.eps w) : w = [] := by
  cases h; rfl

theorem RMatches_cat_inv {r s : Regex} {w : List Char}
    (h : RMatches (Regex.cat r s) w) :
    ∃ w₁ w₂, w = w₁ ++ w₂ ∧ RMatches r w₁ ∧ RMatches s w₂ := by
  cases h with
  | cat h₁ h₂ => exact ⟨_, _, rfl, h₁, h₂⟩

theorem RMatches_alt_inv {r s : Regex} {w : List Char}
    (h : RMatches (Regex.alt r s) w) : RMatches r w ∨ RMatches s w := by
  cases h with
  | altL h => exact Or.inl h
  | altR h => exact Or.inr h

theorem mkAlt_iff (r s : Regex) (w : List Char) :
    RMatches (mkAlt r s) w ↔ RMatches (Regex.alt r s) w := by
  unfold mkAlt
  split_ifs with h₁ h₂ h₃
  · subst h₁
    exact ⟨RMatches.altR, fun h => (RMatches_alt_inv h).elim
      (fun h => absurd h RMatches_emp_elim) id⟩
  · subst h₂
    exact ⟨RMatches.altL, fun h => (RMatches_alt_inv h).elim id
      (fun h => absurd h RMatches_emp_elim)⟩
  · subst h₃
    exact ⟨RMatches.altL, fun h => (RMatches_alt_inv h).elim id id⟩
  · exact Iff.rfl

theorem mkCat_iff (r s : Regex) (w : List Char) :
    RMatches (mkCat r s) w ↔ RMatches (Regex.cat r s) w := by
  unfold mkCat
  split_ifs with h₁ h₂ h₃ h₄
  · subst h₁
    exact ⟨fun h => absurd h RMatches_emp_elim, fun h => by
      obtain ⟨w₁, w₂, _, hr, _⟩ := RMatches_cat_inv h
      exact absurd hr RMatches_emp_elim⟩
  · subst h₂
    exact ⟨fun h => absurd h RMatches_emp_elim, fun h => by
      obtain ⟨w₁, w₂, _, _, hs⟩ := RMatches_cat_inv h
      exact absurd hs RMatches_emp_elim⟩
  · subst h₃
    constructor
    · intro h
      have := RMatches.cat RMatches.eps h
      simpa using this
    · intro h
      obtain ⟨w₁, w₂, hw, hr, hs⟩ := RMatches_cat_inv h
      obtain rfl := RMatches_eps_inv hr
      simpa [hw] using hs
  · subst h₄
    constructor
    · intro h
      have := RMatches.cat h RMatches.eps
      simpa using this
    · intro h
      obtain ⟨w₁, w₂, hw, hr, hs⟩ := RMatches_cat_inv h
      obtain rfl := RMatches_eps_inv hs
      simpa [hw] using hr
  · exact Iff.rfl

theorem nullable_iff (r : Regex) : nullable r = true ↔ RMatches r [] := by
  induction r with
  | emp => simp [nullable]; intro h; exact RMatches_emp_elim h
  | eps => simp [nullable]; exact RMatches.eps
  | char c =>
    simp [nullable]; intro h
    cases h
  | wordC =>
    simp [nullable]; intro h
    cases h
  | alphaC =>
    simp [nullable]; intro h
    cases h
  | sepC =>
    simp [nullable]; intro h
    cases h
  | alt r s ihr ihs =>
    simp only [nullable, Bool.or_eq_true, ihr, ihs]
    constructor
    · intro h
      exact h.elim RMatches.altL RMatches.altR
    · intro h
      exact (RMatches_alt_inv h).elim Or.inl Or.inr
  | cat r s ihr ihs =>
    simp only [nullable, Bool.and_eq_true, ihr, ihs]
    constructor
    · intro h
      simpa using RMatches.cat h.1 h.2
    · intro h
      obtain ⟨w₁, w₂, hw, hr, hs⟩ := RMatches_cat_inv h
      obtain ⟨rfl, rfl⟩ := List.append_eq_nil.mp hw.symm
      exact ⟨hr, hs⟩
  | star r ih =>
    simp [nullable]
    exact RMatches.starNil

theorem star_decomp_aux {q : Regex} {u : List Char} (h : RMatches q u) :
    ∀ {r : Regex} {c : Char} {w : List Char}, q = Regex.star r → u = c :: w →
    ∃ w₁ w₂, w = w₁ ++ w₂ ∧ RMatches r (c :: w₁) ∧ RMatches (Regex.star r) w₂ := by
  induction h with
  | eps => intro _ _ _ hq _; simp at hq
  | char c => intro _ _ _ hq _; simp at hq
  | wordC _ => intro _ _ _ hq _; simp at hq
  | alphaC _ => intro _ _ _ hq _; simp at hq
  | sepC _ => intro _ _ _ hq _; simp at hq
  | altL _ => intro _ _ _ hq _; simp at hq
  | altR _ => intro _ _ _ hq _; simp at hq
  | cat _ _ _ _ => intro _ _ _ hq _; simp at hq
  | starNil => intro _ _ _ _ hu; simp at hu
  | starCons h₁ h₂ ih₁ ih₂ =>
    intro r c w hq hu
    obtain rfl : _ = r := by injection hq
    rename_i w₁ w₂
    cases w₁ with
    | nil =>
      exact ih₂ rfl (by simpa using hu)
    | cons a t =>
      obtain ⟨rfl, rfl⟩ : a = c ∧ t ++ w₂ = w := by
        constructor
        · exact (List.cons.injEq .. ▸ hu).1.symm ▸ rfl
        · exact (List.cons.injEq .. ▸ hu).2
      exact ⟨t, w₂, rfl, h₁, h₂⟩

theorem RMatches_star_cons {r : Regex} {c : Char} {w : List Char}
    (h : RMatches (Regex.star r) (c :: w)) :
    ∃ w₁ w₂, w = w₁ ++ w₂ ∧ RMatches r (c :: w₁) ∧ RMatches (Regex.star r) w₂ :=
  star_decomp_aux h rfl rfl

theorem deriv_iff (r : Regex) (c : Char) (w : List Char) :
    RMatches (deriv r c) w ↔ RMatches r (c :: w) := by
  induction r generalizing w with
  | emp =>
    simp only [deriv]
    exact ⟨fun h => absurd h RMatches_emp_elim, fun h => absurd h RMatches_emp_elim⟩
  | eps =>
    simp only [deriv]
    exact ⟨fun h => absurd h RMatches_emp_elim, fun h => by cases h⟩
  | char d =>
    simp only [deriv]
    split_ifs with hc
    · subst hc
      constructor
      · intro h
        obtain rfl := RMatches_eps_inv h
        exact RMatches.char c
      · intro h
        cases h
        exact RMatches.eps
    · constructor
      · intro h
        exact absurd h RMatches_emp_elim
      · intro h
        cases h
        exact absurd rfl hc
  | wordC =>
    simp only [deriv]
    split_ifs with hc
    · constructor
      · intro h
        obtain rfl := RMatches_eps_inv h
        exact RMatches.wordC hc
      · intro h
        cases h
        exact RMatches.eps
    · constructor
      · intro h
        exact absurd h RMatches_emp_elim
      · intro h
        cases h
        exact absurd (by assumption) hc
  | alphaC =>
    simp only [deriv]
    split_ifs with hc
    · constructor
      · intro h
        obtain rfl := RMatches_eps_inv h
        exact RMatches.alphaC hc
      · intro h
        cases h
        exact RMatches.eps
    · constructor
      · intro h
        exact absurd h RMatches_emp_elim
      · intro h
        cases h
        exact absurd (by assumption) hc
  | sepC =>
    simp only [deriv]
    split_ifs with hc
    · constructor
      · intro h
        obtain rfl := RMatches_eps_inv h
        exact RMatches.sepC hc
      · intro h
        cases h
        exact RMatches.eps
    · constructor
      · intro h
        exact absurd h RMatches_emp_elim
      · intro h
        cases h
        exact absurd (by assumption) hc
  | alt r s ihr ihs =>
    simp only [deriv]
    rw [mkAlt_iff]
    constructor
    · intro h
      exact (RMatches_alt_inv h).elim (fun h => RMatches.altL ((ihr w).mp h))
        (fun h => RMatches.altR ((ihs w).mp h))
    · intro h
      exact (RMatches_alt_inv h).elim (fun h => RMatches.altL ((ihr w).mpr h))
        (fun h => RMatches.altR ((ihs w).mpr h))
  | cat r s ihr ihs =>
    simp only [deriv]
    split_ifs with hn
    · rw [mkAlt_iff]
      constructor
      · intro h
        rcases RMatches_alt_inv h with h | h
        · obtain ⟨w₁, w₂, rfl, hr, hs⟩ := RMatches_cat_inv ((mkCat_iff ..).mp h)
          exact List.cons_append .. ▸ RMatches.cat ((ihr w₁).mp hr) hs
        · have hr : RMatches r [] := (nullable_iff r).mp hn
          have := RMatches.cat hr ((ihs w).mp h)
          simpa using this
      · intro h
        obtain ⟨w₁, w₂, hw, hr, hs⟩ := RMatches_cat_inv h
        cases w₁ with
        | nil =>
          obtain rfl : w₂ = c :: w := by simpa using hw.symm
          exact RMatches.altR ((ihs w).mpr hs)
        | cons a t =>
          obtain ⟨rfl, rfl⟩ : a = c ∧ w = t ++ w₂ := by
            have := (List.cons.injEq .. ▸ hw)
            exact ⟨this.1.symm, this.2⟩
          exact RMatches.altL ((mkCat_iff ..).mpr (RMatches.cat ((ihr t).mpr hr) hs))
    · rw [mkCat_iff]
      constructor
      · intro h
        obtain ⟨w₁, w₂, rfl, hr, hs⟩ := RMatches_cat_inv h
        exact List.cons_append .. ▸ RMatches.cat ((ihr w₁).mp hr) hs
      · intro h
        obtain ⟨w₁, w₂, hw, hr, hs⟩ := RMatches_cat_inv h
        cases w₁ with
        | nil =>
          exact absurd ((nullable_iff r).mpr hr) (by simpa using hn)
        | cons a t =>
          obtain ⟨rfl, rfl⟩ : a = c ∧ w = t ++ w₂ := by
            have := (List.cons.injEq .. ▸ hw)
            exact ⟨this.1.symm, this.2⟩
          exact RMatches.cat ((ihr t).mpr hr) hs
  | star r ih =>
    simp only [deriv]
    rw [mkCat_iff]
    constructor
    · intro h
      obtain ⟨w₁, w₂, rfl, hr, hs⟩ := RMatches_cat_inv h
      exact List.cons_append .. ▸ RMatches.starCons ((ih w₁).mp hr) hs
    · intro h
      obtain ⟨w₁, w₂, rfl, hr, hs⟩ := RMatches_star_cons h
      exact RMatches.cat ((ih w₁).mpr hr) hs

theorem nullable_foldl (l : List Char) :
    ∀ r : Regex, nullable (l.foldl deriv r) = true ↔ RMatches r l := by
  induction l with
  | nil => intro r; exact nullable_iff r
  | cons c l ih =>
    intro r
    rw [List.foldl_cons]
    exact (ih (deriv r c)).trans (deriv_iff r c l)

/-- The derivative matcher decides the inductive language semantics. -/
theorem rmatch_iff (r : Regex) (s : String) :
    rmatch r s = true ↔ RMatches r s.data :=
  nullable_foldl s.data r

/-! ### Helper lemmas -/

theorem string_append_ne_empty_left {s : String} (t : String) (h : s ≠ "") :
    s ++ t ≠ "" := by
  intro hc
  apply h
  cases s with
  | mk sd =>
    cases t with
    | mk td =>
      have hd : sd ++ td = [] := congrArg String.data hc
      obtain ⟨rfl, -⟩ := List.append_eq_nil.mp hd
      rfl

theorem string_append_ne_empty_right (s : String) {t : String} (h : t ≠ "") :
    s ++ t ≠ "" := by
  intro hc
  apply h
  cases s with
  | mk sd =>
    cases t with
    | mk td =>
      have hd : sd ++ td = [] := congrArg String.data hc
      obtain ⟨-, rfl⟩ := List.append_eq_nil.mp hd
      rfl

/-- On failure with a non-empty caller message, `getResponse` passes the
message through. -/
theorem getResponse_some_msg (email : Option String) {msg : String} (h : msg ≠ "") :
    getResponse false email (some msg) = { valid := false, error := some msg } := by
  simp [getResponse, jsOrStr, h]

/-- On failure without a caller message, `getResponse` generates the
default message. -/
theorem getResponse_default_msg (email : Option String) :
    getResponse false email none =
      { valid := false, error := some (jsShowNullable email ++ " is not a valid email.") } :=
  rfl

/-- The result of `getResponse` always satisfies the `ValidationResult`
invariant: success carries no message, failure carries a non-empty one. -/
theorem getResponse_invariant (v : Bool) (email error : Option String) :
    ((getResponse v email error).valid = true → (getResponse v email error).error = none) ∧
    ((getResponse v email error).valid = false →
      ∃ msg, (getResponse v email error).error = some msg ∧ msg ≠ "") := by
  cases v with
  | true => exact ⟨fun _ => rfl, fun h => by simp [getResponse] at h⟩
  | false =>
    refine ⟨fun h => by simp [getResponse] at h, fun _ => ?_⟩
    refine ⟨jsOrStr error (jsShowNullable email ++ " is not a valid email."), rfl, ?_⟩
    cases error with
    | none =>
      exact string_append_ne_empty_right _ (by decide)
    | some e =>
      by_cases he : e = ""
      · simp [jsOrStr, he]
        exact fun hc => absurd (congrArg String.data hc) (by simp)
      · simp [jsOrStr, he]

/-- The `for...of` loop computes exactly "some domain's pattern matches". -/
theorem matchDomainsLoop_eq_any (email : String) (l : List String) :
    matchDomainsLoop email l =
      l.any (fun d => rmatch (EMAIL_WITH_DOMAIN_REGEX (splitDomain d).1 (splitDomain d).2) email) := by
  induction l with
  | nil => rfl
  | cons d rest ih =>
    simp only [matchDomainsLoop, List.any_cons]
    split_ifs with h
    · simp [h]
    · simp [ih, Bool.eq_false_iff.mpr h]

/-- `max || 3` is never `0`: a zero `max` is falsy and falls back to `3`. -/
theorem maxOr3_ne_zero (m : MaxOpt) : maxOr3 m ≠ 0 := by
  cases m with
  | num n =>
    cases n with
    | int k =>
      simp only [maxOr3]
      split_ifs with h
      · exact h
      · omega
    | nan => simp [maxOr3]
  | none => simp [maxOr3]
  | str s => simp [maxOr3]

/-- `max || 3` equals `1` only for `max = 1`. -/
theorem maxOr3_eq_one {m : MaxOpt} (h : maxOr3 m = 1) : m = MaxOpt.num (JSNum.int 1) := by
  cases m with
  | num n =>
    cases n with
    | int k =>
      simp only [maxOr3] at h
      split_ifs at h with hk
      · rw [h]
      · omega
    | nan => simp [maxOr3] at h
  | none => simp [maxOr3] at h
  | str s => simp [maxOr3] at h

/-- Pattern construction succeeds for every bound except `1` (`0` never
reaches it). -/
theorem mkStandardPattern_ok {L : Int} (h1 : L ≠ 1) (h0 : L ≠ 0) :
    ∃ pat, mkStandardPattern L = Except.ok pat := by
  unfold mkStandardPattern
  split_ifs with ha hb
  · exact ⟨_, rfl⟩
  · omega
  · exact ⟨_, rfl⟩

/-! ### The claims -/

/-- **C1** — counterexample.  The claim says `checkEmail` never throws,
for every numeric `max` including `max = 1`; but with `max = 1` and no
domain restriction the source builds `new RegExp` over a pattern
containing the quantifier `\x7b2,1\x7d`, whose maximum is smaller than its
minimum — an early `SyntaxError` in JavaScript — so the call throws
instead of returning a `ValidationResult`. -/
theorem c1_counterexample :
    checkEmail "a@b.cc" { max := MaxOpt.num (JSNum.int 1) } =
      Except.error "SyntaxError: Invalid regular expression: numbers out of order in \x7b\x7d quantifier" :=
  rfl

/-- **C1** (amended): for every email string and every options value,
`checkEmail` terminates normally and returns a `ValidationResult` —
every failure mode is reported as `valid:false` with a message — except
in the single configuration where `domains` is falsy or the empty array
and `max` is the number `1`, where `new RegExp` throws a `SyntaxError`
(a negative `max` does not throw: its braces are parsed as literal
characters). -/
theorem c1_amended_no_throw (email : String) (options : CheckEmailOptions)
    (h : ¬((!options.domains.truthy || options.domains.isEmptyArr) = true ∧
            options.max = MaxOpt.num (JSNum.int 1))) :
    ∃ res : ValidationResult, checkEmail email options = Except.ok res := by
  unfold checkEmail
  dsimp only
  split_ifs with h₁ h₂ h₃
  · exact ⟨_, rfl⟩
  · have hmax : options.max ≠ MaxOpt.num (JSNum.int 1) := fun hm => h ⟨h₂, hm⟩
    have h1 : maxOr3 options.max ≠ 1 := fun hc => hmax (maxOr3_eq_one hc)
    obtain ⟨pat, hp⟩ := mkStandardPattern_ok h1 (maxOr3_ne_zero options.max)
    rw [hp]
    exact ⟨_, rfl⟩
  · exact ⟨_, rfl⟩
  · exact ⟨_, rfl⟩

theorem c1_witness :
    ∃ res : ValidationResult, checkEmail "test@example.com" {} = Except.ok res :=
  c1_amended_no_throw "test@example.com" {} (by decide)

/-- **C2** — counterexample.  The claim says supplying both a non-empty
`domains` and a `max` value always yields the mutual-exclusion error; but
`max: 0` is falsy, the `if (max)` guard does not fire, and the call
proceeds to domain matching and succeeds. -/
theorem c2_counterexample :
    checkEmail "test@example.com"
        { domains := DomainsOpt.str "example.com", max := MaxOpt.num (JSNum.int 0) } =
      Except.ok { valid := true } ∧
    checkEmail "test@example.com"
        { domains := DomainsOpt.str "example.com", max := MaxOpt.num (JSNum.int 0) } ≠
      Except.ok { valid := false, error := some "`max` can only be used if `domains` are not provided." } := by
  exact ⟨by decide, by decide⟩

/-- **C2** (amended): for every email string and every options value that
supplies both a non-empty `domains` value (string or non-empty list) and a
*truthy numeric* `max`, `checkEmail` returns the mutual-exclusion error,
even when the email itself is malformed, because the check runs before any
email matching.  (A falsy `max` such as `0` is treated as absent, and a
truthy non-number `max` triggers the earlier type error instead.) -/
theorem c2_amended_mutual_exclusion (email : String) (d : DomainsOpt) (n : JSNum)
    (h₁ : d.truthy = true) (h₂ : d.isEmptyArr = false) (h₃ : n.truthy = true) :
    checkEmail email { domains := d, max := MaxOpt.num n } =
      Except.ok { valid := false, error := some "`max` can only be used if `domains` are not provided." } := by
  have key : checkEmail email { domains := d, max := MaxOpt.num n } =
      Except.ok (getResponse false none
        (some "`max` can only be used if `domains` are not provided.")) := by
    unfold checkEmail
    simp [MaxOpt.truthy, MaxOpt.isNumber, h₁, h₂, h₃]
  rw [key, getResponse_some_msg none (by decide)]

theorem c2_witness :
    checkEmail "bad-email" { domains := DomainsOpt.str "example.com", max := MaxOpt.num (JSNum.int 3) } =
      Except.ok { valid := false, error := some "`max` can only be used if `domains` are not provided." } :=
  c2_amended_mutual_exclusion "bad-email" (DomainsOpt.str "example.com") (JSNum.int 3)
    (by decide) (by decide) (by decide)

/-- **C3** — counterexample.  The claim says any provided non-number
`max` fails immediately with the type error; but the guard is
`max && typeof max !== 'number'`, so a falsy non-number such as the empty
string is skipped and validation proceeds normally. -/
theorem c3_counterexample :
    checkEmail "a@b.cc" { max := MaxOpt.str "" } = Except.ok { valid := true } ∧
    checkEmail "a@b.cc" { max := MaxOpt.str "" } ≠
      Except.ok { valid := false, error := some "`max` can only have a value of number." } := by
  exact ⟨by decide, by decide⟩

/-- **C3** (amended): whenever `max` is provided, *truthy*, and not a
number, `checkEmail` fails immediately — before mode selection and before
any domains handling — with the type-error message; e.g.
`checkEmail('a@b.c', { max: 'three' })` returns exactly that result. -/
theorem c3_amended_max_type_guard (email : String) (options : CheckEmailOptions)
    (h₁ : options.max.truthy = true) (h₂ : options.max.isNumber = false) :
    checkEmail email options =
      Except.ok { valid := false, error := some "`max` can only have a value of number." } := by
  have key : checkEmail email options =
      Except.ok (getResponse false none (some "`max` can only have a value of number.")) := by
    unfold checkEmail
    simp [h₁, h₂]
  rw [key, getResponse_some_msg none (by decide)]

theorem c3_witness :
    checkEmail "a@b.c" { max := MaxOpt.str "three" } =
      Except.ok { valid := false, error := some "`max` can only have a value of number." } :=
  c3_amended_max_type_guard "a@b.c" { max := MaxOpt.str "three" } (by decide) (by decide)

/-- **C9**: a falsy `max` (`0`, `NaN`; an explicit `null` is identified
with absence by the destructuring default) behaves exactly as if `max`
were absent — no type error, no mutual-exclusion error, and in
unrestricted mode the TLD bound falls back to the default `3`. -/
theorem c9_falsy_max (email : String) (d : DomainsOpt) :
    checkEmail email { domains := d, max := MaxOpt.num (JSNum.int 0) } =
      checkEmail email { domains := d, max := MaxOpt.none } ∧
    checkEmail email { domains := d, max := MaxOpt.num JSNum.nan } =
      checkEmail email { domains := d, max := MaxOpt.none } ∧
    checkEmail email { domains := DomainsOpt.none, max := MaxOpt.num (JSNum.int 0) } =
      Except.ok (getResponse (rmatch (standardRegex 3) email) (some email)) :=
  ⟨rfl, rfl, rfl⟩

/-- **C10**: an empty-string `domains` is falsy and selects unrestricted
mode, exactly like an absent `domains`, for every email and every
`max`. -/
theorem c10_empty_string_domains (email : String) (m : MaxOpt) :
    checkEmail email { domains := DomainsOpt.str "", max := m } =
      checkEmail email { domains := DomainsOpt.none, max := m } :=
  rfl

/-- The single-domain branch always returns through the result builder. -/
theorem singleDomainPath_shape (email d disp : String) :
    ∃ v e err, singleDomainPath email d disp = getResponse v e err := by
  unfold singleDomainPath
  split
  · exact ⟨_, _, _, rfl⟩
  · exact ⟨_, _, _, rfl⟩

/-- Every normal return of `checkEmail` is an output of the result
builder `getResponse`. -/
theorem checkEmail_ok_shape (email : String) (options : CheckEmailOptions)
    (res : ValidationResult) (hres : checkEmail email options = Except.ok res) :
    ∃ v e err, res = getResponse v e err := by
  unfold checkEmail at hres
  dsimp only at hres
  split at hres
  · exact ⟨_, _, _, (Except.ok.inj hres).symm⟩
  · split at hres
    · split at hres
      · exact absurd hres (by simp)
      · exact ⟨_, _, _, (Except.ok.inj hres).symm⟩
    · split at hres
      · exact ⟨_, _, _, (Except.ok.inj hres).symm⟩
      · have hm := (Except.ok.inj hres).symm
        revert hm
        split
        · exact fun hm => ⟨_, _, _, hm⟩
        · intro hm
          obtain ⟨v, e, err, hsd⟩ := singleDomainPath_shape email _ _
          exact ⟨v, e, err, hm.trans hsd⟩
        · split
          · intro hm
            obtain ⟨v, e, err, hsd⟩ := singleDomainPath_shape email _ _
            exact ⟨v, e, err, hm.trans hsd⟩
          · split
            · exact fun hm => ⟨_, _, _, hm⟩
            · exact fun hm => ⟨_, _, _, hm⟩

/-- **C4**: results of the builder `getResponse` and of `checkEmail`
always satisfy the `ValidationResult` invariant: on success no error
message is carried, even when one was passed to the builder; on failure
the error is a non-empty string — the caller-supplied message if
non-empty, otherwise the generated `"<email> is not a valid email."`
default, with an absent email printing as the literal token `null`. -/
theorem c4_result_invariant (v : Bool) (emailArg errArg : Option String)
    (email : String) (options : CheckEmailOptions) (res : ValidationResult)
    (hres : checkEmail email options = Except.ok res) :
    (v = true → getResponse v emailArg errArg = { valid := true, error := none }) ∧
    (v = false →
      ∃ msg, getResponse v emailArg errArg = { valid := false, error := some msg } ∧ msg ≠ "" ∧
        ((errArg = some msg ∧ msg ≠ "") ∨
          ((errArg = none ∨ errArg = some "") ∧
            msg = jsShowNullable emailArg ++ " is not a valid email."))) ∧
    ((res.valid = true → res.error = none) ∧
      (res.valid = false → ∃ msg, res.error = some msg ∧ msg ≠ "")) := by
  refine ⟨fun hv => by rw [hv]; rfl, fun hv => ?_, ?_⟩
  · subst hv
    refine ⟨jsOrStr errArg (jsShowNullable emailArg ++ " is not a valid email."), rfl, ?_, ?_⟩
    · cases errArg with
      | none => exact string_append_ne_empty_right _ (by decide)
      | some e =>
        by_cases he : e = ""
        · simp only [jsOrStr, he, if_pos rfl]
          exact string_append_ne_empty_right _ (by decide)
        · simp [jsOrStr, he]
    · cases errArg with
      | none => exact Or.inr ⟨Or.inl rfl, by simp [jsOrStr]⟩
      | some e =>
        by_cases he : e = ""
        · exact Or.inr ⟨Or.inr (by rw [he]), by simp [jsOrStr, he]⟩
        · exact Or.inl ⟨by simp [jsOrStr, he], by simp [jsOrStr, he]⟩
  · obtain ⟨v', e', err', hshape⟩ := checkEmail_ok_shape email options res hres
    rw [hshape]
    exact getResponse_invariant v' e' err'

theorem c4_witness :
    ∃ msg, getResponse false (none : Option String) (none : Option String) =
        { valid := false, error := some msg } ∧ msg ≠ "" ∧ msg = "null is not a valid email." := by
  obtain ⟨-, h2, -⟩ :=
    c4_result_invariant false none none "test@example.com" {} { valid := true } (by decide)
  obtain ⟨msg, heq, hne, hcase⟩ := h2 rfl
  refine ⟨msg, heq, hne, ?_⟩
  rcases hcase with ⟨hc, -⟩ | ⟨-, hmsg⟩
  · exact absurd hc (by simp)
  · rw [hmsg]; rfl

/-- `validateDomains` with at least one ill-formatted entry: the bracketed
message lists exactly the offending entries, in order. -/
theorem validateDomains_error (l : List String)
    (hbad : l.filter (fun d => !rmatch DOMAIN_REGEX d) ≠ []) :
    validateDomains l =
      { valid := false,
        error := some ("[" ++ String.intercalate ", " (l.filter (fun d => !rmatch DOMAIN_REGEX d)) ++
                  "] are not valid domains.") } := by
  unfold validateDomains
  dsimp only
  have hpos : (l.filter (fun d => !rmatch DOMAIN_REGEX d)).length > 0 :=
    List.length_pos.mpr hbad
  simp only [decide_eq_true hpos, Bool.not_true]
  rw [if_pos hpos]
  exact getResponse_some_msg none
    (string_append_ne_empty_left _
      (string_append_ne_empty_left _ (show ("[" : String) ≠ "" by decide)))

/-- `validateDomains` with every entry well-formatted succeeds without a
message. -/
theorem validateDomains_ok (l : List String)
    (hgood : l.filter (fun d => !rmatch DOMAIN_REGEX d) = []) :
    validateDomains l = { valid := true, error := none } := by
  unfold validateDomains
  dsimp only
  simp [hgood, getResponse]

/-- With a list of two or more domains (and no `max`), `checkEmail`
reaches the multi-domain branch. -/
theorem checkEmail_multi_branch (email : String) (l : List String)
    (hlen : 2 ≤ l.length) :
    checkEmail email { domains := DomainsOpt.arr l } =
      Except.ok (match (validateDomains l).error with
        | some msg => getResponse false (some email) (some msg)
        | none => getResponse (matchDomainsLoop email l) (some email)) := by
  have hempty : DomainsOpt.isEmptyArr (DomainsOpt.arr l) = false := by
    cases l with
    | nil => simp at hlen
    | cons a t => rfl
  have hlen1 : (l.length == 1) = false := by
    simp only [beq_eq_false_iff_ne, ne_eq]
    omega
  unfold checkEmail
  dsimp only
  simp [DomainsOpt.truthy, hempty, MaxOpt.truthy, hlen1]

/-- **C6**: with a single domain restriction — a non-empty `domains`
string, or a one-element list — and no `max`, `checkEmail` first checks
the domain against `DOMAIN_REGEX` (`^\w+\.[a-zA-Z]\x7b2,\x7d$`); an
ill-formatted domain yields the domain error with the domain substituted
literally, otherwise the domain is split at its dot into label and TLD
and the email is tested against the exact-match pattern
`^\w+([.-]?\w+)*@<label>\.<tld>$`. -/
theorem c6_single_domain (email s d : String) (hs : s ≠ "") :
    (checkEmail email { domains := DomainsOpt.str s } =
      Except.ok (if rmatch DOMAIN_REGEX s then
          getResponse (rmatch (EMAIL_WITH_DOMAIN_REGEX (splitDomain s).1 (splitDomain s).2) email)
            (some email)
        else { valid := false, error := some ("`" ++ s ++ "` is not a valid domain.") })) ∧
    (checkEmail email { domains := DomainsOpt.arr [d] } =
      Except.ok (if rmatch DOMAIN_REGEX d then
          getResponse (rmatch (EMAIL_WITH_DOMAIN_REGEX (splitDomain d).1 (splitDomain d).2) email)
            (some email)
        else { valid := false, error := some ("`" ++ d ++ "` is not a valid domain.") })) := by
  have hpath : ∀ t : String, singleDomainPath email t t =
      (if rmatch DOMAIN_REGEX t then
        getResponse (rmatch (EMAIL_WITH_DOMAIN_REGEX (splitDomain t).1 (splitDomain t).2) email)
          (some email)
      else { valid := false, error := some ("`" ++ t ++ "` is not a valid domain.") }) := by
    intro t
    unfold singleDomainPath
    cases hrm : rmatch DOMAIN_REGEX t with
    | true => simp [hrm]
    | false =>
      simp only [hrm, Bool.not_false, if_pos, if_neg, Bool.false_eq_true, if_false]
      exact getResponse_some_msg (some email)
        (string_append_ne_empty_left _
          (string_append_ne_empty_left _ (show ("`" : String) ≠ "" by decide)))
  constructor
  · have h1 : checkEmail email { domains := DomainsOpt.str s } =
        Except.ok (singleDomainPath email s s) := by
      unfold checkEmail
      dsimp only
      simp [DomainsOpt.truthy, DomainsOpt.isEmptyArr, hs, MaxOpt.truthy]
    rw [h1, hpath s]
  · have h1 : checkEmail email { domains := DomainsOpt.arr [d] } =
        Except.ok (singleDomainPath email d d) := rfl
    rw [h1, hpath d]

theorem c6_witness :
    checkEmail "test@example.com" { domains := DomainsOpt.str "example.com" } =
      Except.ok { valid := true } ∧
    checkEmail "test@example.com" { domains := DomainsOpt.arr ["bad"] } =
      Except.ok { valid := false, error := some "`bad` is not a valid domain." } := by
  have h := c6_single_domain "test@example.com" "example.com" "bad" (by decide)
  exact ⟨by rw [h.1]; decide, by rw [h.2]; decide⟩

/-- **C7**: with a list of two or more domains and no `max`, the whole
list is format-checked before any email matching: if any entry fails
`DOMAIN_REGEX`, the result is `valid:false` with the bracketed,
comma-space-joined list of every offending domain in original order, for
every email — no email matching is attempted. -/
theorem c7_multi_domain_config (email : String) (l : List String)
    (hlen : 2 ≤ l.length)
    (hbad : l.filter (fun d => !rmatch DOMAIN_REGEX d) ≠ []) :
    checkEmail email { domains := DomainsOpt.arr l } =
      Except.ok
        { valid := false,
          error := some ("[" ++ String.intercalate ", " (l.filter (fun d => !rmatch DOMAIN_REGEX d)) ++
                    "] are not valid domains.") } := by
  rw [checkEmail_multi_branch email l hlen, validateDomains_error l hbad]
  exact congrArg Except.ok (getResponse_some_msg (some email)
    (string_append_ne_empty_left _
      (string_append_ne_empty_left _ (show ("[" : String) ≠ "" by decide))))

theorem c7_witness :
    checkEmail "x@y.com" { domains := DomainsOpt.arr ["bad_domain!", "ok.com"] } =
      Except.ok { valid := false, error := some "[bad_domain!] are not valid domains." } := by
  rw [c7_multi_domain_config "x@y.com" ["bad_domain!", "ok.com"] (by decide) (by decide)]
  decide

/-- **C8**: with a well-formatted list of two or more domains and no
`max`, the email is tested against each domain's exact-match pattern in
list order, stopping at the first match: the result is `valid:true` iff
some domain's pattern matches, `valid:false` with the generic
`"<email> is not a valid email."` message when none does; and a match on
the head domain returns `true` without consulting the rest of the
list. -/
theorem c8_multi_domain_match (email : String) (l : List String)
    (hlen : 2 ≤ l.length)
    (hgood : l.filter (fun d => !rmatch DOMAIN_REGEX d) = []) :
    checkEmail email { domains := DomainsOpt.arr l } =
      Except.ok (if l.any (fun d =>
            rmatch (EMAIL_WITH_DOMAIN_REGEX (splitDomain d).1 (splitDomain d).2) email) then
          { valid := true }
        else { valid := false, error := some (email ++ " is not a valid email.") }) ∧
    (∀ (d : String) (rest : List String),
      rmatch (EMAIL_WITH_DOMAIN_REGEX (splitDomain d).1 (splitDomain d).2) email = true →
      matchDomainsLoop email (d :: rest) = true) := by
  constructor
  · rw [checkEmail_multi_branch email l hlen, validateDomains_ok l hgood]
    dsimp only
    rw [matchDomainsLoop_eq_any]
    cases hany : l.any (fun d =>
        rmatch (EMAIL_WITH_DOMAIN_REGEX (splitDomain d).1 (splitDomain d).2) email) with
    | true => rfl
    | false => rfl
  · intro d rest hmatch
    unfold matchDomainsLoop
    simp [hmatch]

theorem c8_witness :
    checkEmail "test@example.com"
        { domains := DomainsOpt.arr ["sample.com", "example.com", "test.com"] } =
      Except.ok { valid := true } := by
  rw [(c8_multi_domain_match "test@example.com" ["sample.com", "example.com", "test.com"]
    (by decide) (by decide)).1]
  decide

/-- Any word of the spec's one-extension-group pattern is accepted by the
code's pattern, whose `(...)+` group matches once with an empty star. -/
theorem specSimple_le_standard {w : List Char} (h : RMatches specSimplePattern w) :
    RMatches (standardRegex 3) w := by
  obtain ⟨w₁, rest, rfl, hloc, h⟩ := RMatches_cat_inv h
  obtain ⟨wa, rest2, rfl, hat, h⟩ := RMatches_cat_inv h
  obtain ⟨w₂, wg, rfl, hdom, hg⟩ := RMatches_cat_inv h
  refine RMatches.cat hloc (RMatches.cat hat (RMatches.cat hdom ?_))
  have hplus : RMatches (rPlus (Regex.cat (Regex.char '.') (rRange Regex.wordC 2 3))) (wg ++ []) :=
    RMatches.cat hg RMatches.starNil
  simpa using hplus

/-- **C5**: in unrestricted mode the email is tested against
`^\w+([.-]?\w+)*@\w+([.-]?\w+)*(\.\w\x7b2,L\x7d)+$` with `L = max` when a
(valid) truthy `max` is given and `L = 3` by default; hence every string
matching the spec's pattern `^\w+([.-]?\w+)*@\w+([.-]?\w+)*\.\w\x7b2,3\x7d$`
is accepted with no options, `test@example.info` is accepted with
`max = 4`, and the same email is rejected with `max` omitted. -/
theorem c5_unrestricted_pattern :
    (∀ e : String, rmatch specSimplePattern e = true →
      checkEmail e {} = Except.ok { valid := true }) ∧
    (∀ (e : String) (n : Int), 2 ≤ n →
      checkEmail e { max := MaxOpt.num (JSNum.int n) } =
        Except.ok (getResponse (rmatch (standardRegex n.toNat) e) (some e))) ∧
    (∀ e : String, checkEmail e {} =
      Except.ok (getResponse (rmatch (standardRegex 3) e) (some e))) ∧
    checkEmail "test@example.info" { max := MaxOpt.num (JSNum.int 4) } =
      Except.ok { valid := true } ∧
    checkEmail "test@example.info" {} =
      Except.ok { valid := false, error := some "test@example.info is not a valid email." } := by
  refine ⟨?_, ?_, fun e => rfl, by decide, by decide⟩
  · intro e he
    have h1 : checkEmail e {} =
        Except.ok (getResponse (rmatch (standardRegex 3) e) (some e)) := rfl
    have h2 : rmatch (standardRegex 3) e = true :=
      (rmatch_iff _ _).mpr (specSimple_le_standard ((rmatch_iff _ _).mp he))
    rw [h1, h2]
    rfl
  · intro e n hn
    have h0 : n ≠ 0 := by omega
    unfold checkEmail
    dsimp only
    simp [MaxOpt.isNumber, MaxOpt.truthy, DomainsOpt.truthy, DomainsOpt.isEmptyArr,
      maxOr3, h0, mkStandardPattern, show ¬ n < 0 by omega, show ¬ n < 2 by omega]

theorem c5_witness :
    checkEmail "a@bc.de" {} = Except.ok { valid := true } ∧
    checkEmail "x@y.info" { max := MaxOpt.num (JSNum.int 4) } =
      Except.ok (getResponse (rmatch (standardRegex 4) "x@y.info") (some "x@y.info")) := by
  constructor
  · exact c5_unrestricted_pattern.1 "a@bc.de" (by decide)
  · exact c5_unrestricted_pattern.2.1 "x@y.info" 4 (by omega)

end CheckEmailJs
